import Mathlib

/-!
Verification of the Smart Resume Scanner matching core and frontend state
handling.  The repository sources contain the Next.js frontend
(`ResumeMatcherUI`, `UploadAndMatch`) and the README describing the FastAPI
backend; the backend matching engine itself (ScoreFusion, BatchCoordinator,
SimilarityScorer, ReasoningScorer, ReportAssembler) is not among the sources,
so those components are modelled from the specification, as marked on each
definition.  Frontend handlers are translated directly from the TypeScript
source.
-/

namespace ResumeScanner

/-- MatchOutcome: the ranked unit — candidate name, filename, fused final
score, justification, strengths and gaps (spec §3 data model; mirrors the
frontend `Candidate` interface shape). -/
structure MatchOutcome where
  candidate_name : String
  filename : String
  final_score : ℤ
  justification : String
  strengths : List String
  gaps : List String
deriving DecidableEq

/-- ReasoningVerdict: a validated reasoning-service verdict
(`ReasoningResult` when present): integer match score, strengths, gaps,
justification. -/
structure ReasoningVerdict where
  match_score : ℤ
  strengths : List String
  gaps : List String
  justification : String
deriving DecidableEq

/-- Modelled from the spec: the backend ScoreFusion component (spec §4.5) is
not in the repository sources.  `none` stands for an unavailable similarity
("unavailable") or absent reasoning ("absent") signal.  Fusion table:
both present → round(0.4×S×100 + 0.6×R); similarity only → round(S×100);
reasoning only → R; both missing → excluded (`none`). -/
def fuseScore (S : Option ℚ) (R : Option ℤ) : Option ℤ :=
  match S, R with
  | some s, some r => some (round ((0.4 : ℚ) * s * 100 + (0.6 : ℚ) * (r : ℚ)))
  | some s, none => some (round (s * 100))
  | none, some r => some r
  | none, none => none

/-- The fused hybrid expression for present similarity `s` and reasoning
score `r`, as it appears inside `fuseScore`. -/
def hybridExpr (s : ℚ) (r : ℤ) : ℚ := (0.4 : ℚ) * s * 100 + (0.6 : ℚ) * (r : ℚ)

/-- Modelled from the spec: justification chosen by ScoreFusion — the
reasoning verdict's own justification when present, else the generic
similarity-only text (spec §4.5 fusion table). -/
def fusedJustification : Option ReasoningVerdict → String
  | some v => v.justification
  | none => "similarity-only; reasoning unavailable"

/-- Modelled from the spec: strengths propagated from the reasoning verdict
when present, empty otherwise. -/
def fusedStrengths : Option ReasoningVerdict → List String
  | some v => v.strengths
  | none => []

/-- Modelled from the spec: gaps propagated from the reasoning verdict when
present, empty otherwise. -/
def fusedGaps : Option ReasoningVerdict → List String
  | some v => v.gaps
  | none => []

/-- Modelled from the spec: raw fields of the single JSON object extracted
from a reasoning-service response (spec §4.4, README LLM prompt JSON
schema); each field is `none` when missing from the object. -/
structure RawFields where
  match_score : Option ℤ
  strengths : Option (List String)
  gaps : Option (List String)
  justification : Option String
deriving DecidableEq

/-- Modelled from the spec: the shape of a reasoning-service response after
transport and JSON extraction — a transport failure, a body with no JSON
object, or one JSON object with its raw fields (spec §4.4, §6). -/
inductive ServiceResponse where
  | transportFailure : ServiceResponse
  | nonJson (body : String) : ServiceResponse
  | json (fields : RawFields) : ServiceResponse
deriving DecidableEq

/-- Modelled from the spec: ReasoningScorer response validation (spec §4.4).
Any non-JSON response, missing field, or out-of-range match_score is a
rejection yielding "absent" (`none`) — nothing is clamped or coerced. -/
def validateResponse : ServiceResponse → Option ReasoningVerdict
  | ServiceResponse.transportFailure => none
  | ServiceResponse.nonJson _ => none
  | ServiceResponse.json f =>
    match f.match_score, f.strengths, f.gaps, f.justification with
    | some ms, some st, some gp, some j =>
      if 0 ≤ ms ∧ ms ≤ 100 then
        some { match_score := ms, strengths := st, gaps := gp, justification := j }
      else none
    | _, _, _, _ => none

/-- Modelled from the spec: one candidate entering the BatchCoordinator,
carrying the per-candidate signals produced by the (external) embedding and
reasoning providers: similarity in [0,1] or unavailable, and the validated
reasoning verdict or absent (spec §4.6, §5). -/
structure CandidateInput where
  filename : String
  candidate_name : String
  raw_text : String
  similarity : Option ℚ
  reasoning : Option ReasoningVerdict
deriving DecidableEq

/-- Modelled from the spec: one candidate's pipeline result — a MatchOutcome
when fusion produces a score, or `none` when the candidate is excluded
(both signals missing, spec §4.5/§4.6). -/
def pipelineOutcome (c : CandidateInput) : Option MatchOutcome :=
  match fuseScore c.similarity (Option.map (fun v => v.match_score) c.reasoning) with
  | none => none
  | some f =>
    some { candidate_name := c.candidate_name, filename := c.filename, final_score := f,
           justification := fusedJustification c.reasoning,
           strengths := fusedStrengths c.reasoning,
           gaps := fusedGaps c.reasoning }

/-- Modelled from the spec: the BatchCoordinator ranking order — final score
descending, filename ascending on ties (spec §4.6) — as a boolean
comparator. -/
def rankLE (a b : MatchOutcome) : Bool :=
  decide (b.final_score < a.final_score) ||
    (a.final_score == b.final_score && decide (a.filename ≤ b.filename))

/-- Modelled from the spec: the deterministic sort of MatchOutcomes
(descending final score, filename ascending tie-break) performed by the
BatchCoordinator (spec §4.6); a stable merge sort under `rankLE`. -/
def sortOutcomes (l : List MatchOutcome) : List MatchOutcome := l.mergeSort rankLE

/-- Modelled from the spec: scorable candidates of a batch — those whose
pipeline produced a MatchOutcome. -/
def scoredOf (cands : List CandidateInput) : List MatchOutcome :=
  cands.filterMap pipelineOutcome

/-- Modelled from the spec: excluded candidates of a batch, each paired with
its reason string (spec §7: excluded-candidate marker with a reason). -/
def excludedOf (cands : List CandidateInput) : List (String × String) :=
  (cands.filter fun c => (pipelineOutcome c).isNone).map
    fun c => (c.filename, "similarity and reasoning unavailable")

/-- Modelled from the spec: batch lifecycle states
PENDING → RUNNING → one of COMPLETED, PARTIAL, FAILED (spec §4.6). -/
inductive BatchStatus where
  | PENDING : BatchStatus
  | RUNNING : BatchStatus
  | COMPLETED : BatchStatus
  | PARTIAL : BatchStatus
  | FAILED : BatchStatus
deriving DecidableEq

/-- Modelled from the spec: the value returned by `submit_batch` — terminal
status, ranked MatchOutcomes truncated to top_k, excluded candidates with
reasons, and the retained filename → raw text mapping (spec §3, §6, §7). -/
structure BatchResult where
  status : BatchStatus
  ranked : List MatchOutcome
  excluded : List (String × String)
  resume_texts : List (String × String)
deriving DecidableEq

/-- Modelled from the spec: `submit_batch` aggregation (spec §4.6):
COMPLETED when every candidate scored, PARTIAL when at least one scored and
at least one was excluded, FAILED when none scored; ranked list sorted and
truncated to top_k. -/
def submitBatch (topk : ℕ) (cands : List CandidateInput) : BatchResult :=
  { status :=
      if (scoredOf cands).length = cands.length then BatchStatus.COMPLETED
      else if scoredOf cands ≠ [] then BatchStatus.PARTIAL
      else BatchStatus.FAILED
    ranked := (sortOutcomes (scoredOf cands)).take topk
    excluded := excludedOf cands
    resume_texts := cands.map fun c => (c.filename, c.raw_text) }

/-- Modelled from the spec: dot product of two fixed-length embedding
vectors with rational entries (SimilarityScorer, spec §4.3). -/
def dotQ {n : ℕ} (A B : Fin n → ℚ) : ℚ := ∑ i, A i * B i

/-- Modelled from the spec: squared Euclidean norm of an embedding
vector. -/
def normSqQ {n : ℕ} (A : Fin n → ℚ) : ℚ := ∑ i, A i ^ 2

/-- Modelled from the spec: raw cosine similarity
cos(A,B) = (A·B)/(‖A‖·‖B‖) (spec §4.3, README "AI Matching Engine Step
1"). -/
noncomputable def cosineSim {n : ℕ} (A B : Fin n → ℚ) : ℝ :=
  ((dotQ A B : ℚ) : ℝ) / (Real.sqrt ((normSqQ A : ℚ) : ℝ) * Real.sqrt ((normSqQ B : ℚ) : ℝ))

/-- Modelled from the spec: the single central rescaling of a raw cosine to
[0,1] via (cosine+1)/2 (spec §4.3). -/
noncomputable def rescaleCosine (c : ℝ) : ℝ := (c + 1) / 2

/-- Modelled from the spec: the similarity score used downstream — the raw
cosine rescaled exactly once, at this point of use (spec §4.3). -/
noncomputable def similarityScore {n : ℕ} (A B : Fin n → ℚ) : ℝ :=
  rescaleCosine (cosineSim A B)

/-- UIFile models a browser `File` value by its name (the only property the
frontend reads). -/
structure UIFile where
  name : String
deriving DecidableEq

/-- Candidate, translated from the frontend TypeScript interface of the
same name in the matcher UI source. -/
structure Candidate where
  candidate_name : String
  filename : String
  match_score : ℤ
  justification : String
  strengths : List String
  gaps : List String
deriving DecidableEq

/-- MatchResults, translated from the frontend TypeScript interface: top
candidates plus the filename → raw text mapping. -/
structure MatchResults where
  top_candidates : List Candidate
  resume_texts : List (String × String)
deriving DecidableEq

/-- UIState: the `useState` fields of the `ResumeMatcherUI` component,
translated from the TypeScript source. -/
structure UIState where
  jobDescFile : Option UIFile
  jobDescText : String
  resumeFiles : List UIFile
  topK : ℤ
  results : Option MatchResults
  isLoading : Bool
  isGeneratingPDF : Bool
  error : String
deriving DecidableEq

/-- Initial component state: no job-description file, empty text, no
resumes, topK 5, no results, no error (the `useState` initializers). -/
def initState : UIState :=
  { jobDescFile := none, jobDescText := "", resumeFiles := [], topK := 5,
    results := none, isLoading := false, isGeneratingPDF := false, error := "" }

/-- Parse a digit run, JS-style: the longest leading run of ASCII digits,
`none` when there is none (parseInt yields NaN). -/
def parseDigits (cs : List Char) : Option ℕ :=
  let ds := cs.takeWhile fun c => c.isDigit
  if ds = [] then none
  else some (ds.foldl (fun acc c => acc * 10 + (c.toNat - '0'.toNat)) 0)

/-- JavaScript `parseInt` on the value strings a number input produces:
leading whitespace skipped, optional sign, longest decimal digit run;
`none` models NaN.  (The `0x` hex form cannot occur in a number input's
value and is not modelled.) -/
def parseIntJS (s : String) : Option ℤ :=
  match s.toList.dropWhile (fun c => c.isWhitespace) with
  | '-' :: rest => (parseDigits rest).map fun v => -(v : ℤ)
  | '+' :: rest => (parseDigits rest).map fun v => (v : ℤ)
  | cs => (parseDigits cs).map fun v => (v : ℤ)

/-- The topK input onChange handler, translated from
`setTopK(parseInt(e.target.value) || 5)`: NaN and 0 are falsy and fall back
to 5; any other parsed integer — including a negative one — is stored. -/
def topKUpdate (input : String) : ℤ :=
  match parseIntJS input with
  | none => 5
  | some 0 => 5
  | some v => v

/-- The network request `handleSubmit` issues, translated from the FormData
it assembles: job description file or text, resume files, top_k. -/
structure MatchRequest where
  job_description_file : Option UIFile
  job_description_text : Option String
  resume_files : List UIFile
  top_k : ℤ
deriving DecidableEq

/-- JavaScript `String.prototype.trim`, modelled over the character list:
leading and trailing whitespace removed. -/
def jsTrim (s : String) : String :=
  String.mk (((s.data.dropWhile Char.isWhitespace).reverse.dropWhile Char.isWhitespace).reverse)

/-- The `handleSubmit` guard, translated from
`if ((!jobDescFile && !jobDescText.trim()) || resumeFiles.length === 0)`. -/
def submitGuard (s : UIState) : Bool :=
  (s.jobDescFile.isNone && jsTrim s.jobDescText == "") || s.resumeFiles.isEmpty

/-- `handleSubmit`, translated from the frontend source, with the fetch
response abstracted as the `response` argument (`some data` for a
successful parse of the server reply, `none` for a failed request).  The
handler is modelled atomically by its final state; it returns the state
plus the request it issued, `none` when the guard returned early. -/
def handleSubmit (s : UIState) (response : Option MatchResults) :
    UIState × Option MatchRequest :=
  if submitGuard s then
    ({ s with error := "Please provide a job description and at least one resume" }, none)
  else
    let req : MatchRequest :=
      { job_description_file := s.jobDescFile,
        job_description_text := if s.jobDescFile.isSome then none else some s.jobDescText,
        resume_files := s.resumeFiles, top_k := s.topK }
    match response with
    | some data => ({ s with isLoading := false, error := "", results := some data }, some req)
    | none =>
      ({ s with isLoading := false, error := "Failed to analyze resumes", results := none },
        some req)

/-- `downloadPDFReport`, translated from the frontend source with the fetch
outcome abstracted as `ok`; it returns early when there are no results and
never touches the job-description fields or the stored results. -/
def downloadReport (s : UIState) (ok : Bool) : UIState :=
  match s.results with
  | none => s
  | some _ =>
    if ok then { s with isGeneratingPDF := false }
    else { s with error := "Failed to generate PDF report", isGeneratingPDF := false }

/-- Events of the matcher UI, one per state-mutating handler in the
`ResumeMatcherUI` source; provider/server responses appear as event
payloads. -/
inductive UIEvent where
  | jobDescFileChange (file : Option UIFile) : UIEvent
  | jobDescTextChange (text : String) : UIEvent
  | resumeFilesChange (files : List UIFile) : UIEvent
  | removeResume (i : ℕ) : UIEvent
  | setTopK (input : String) : UIEvent
  | submit (response : Option MatchResults) : UIEvent
  | downloadReportClick (ok : Bool) : UIEvent

/-- One step of the matcher UI, translated handler by handler from the
TypeScript source: selecting a file clears the text, typing a non-empty
text clears the file (`if (e.target.value) setJobDescFile(null)`),
`removeResume` filters one index out, `setTopK` applies the
`parseInt(...) || 5` coercion. -/
def step (s : UIState) : UIEvent → UIState
  | UIEvent.jobDescFileChange none => s
  | UIEvent.jobDescFileChange (some f) => { s with jobDescFile := some f, jobDescText := "" }
  | UIEvent.jobDescTextChange t =>
    { s with jobDescText := t, jobDescFile := if t = "" then s.jobDescFile else none }
  | UIEvent.resumeFilesChange files => { s with resumeFiles := files }
  | UIEvent.removeResume i => { s with resumeFiles := s.resumeFiles.eraseIdx i }
  | UIEvent.setTopK input => { s with topK := topKUpdate input }
  | UIEvent.submit r => (handleSubmit s r).1
  | UIEvent.downloadReportClick ok => downloadReport s ok

/-- States of the matcher UI reachable from the initial component state by
any event sequence. -/
inductive Reachable : UIState → Prop where
  | init : Reachable initState
  | next {s : UIState} (hs : Reachable s) (e : UIEvent) : Reachable (step s e)

/-- Escape one character for a JSON string literal (backslash and quote,
as JSON.stringify does for these payloads). -/
def jsEscapeChar (c : Char) : String :=
  if c = '\\' then "\\\\" else if c = '"' then "\\\"" else String.singleton c

/-- Escape a whole string for inclusion in a JSON string literal. -/
def jsonEscape (s : String) : String := String.join (s.toList.map jsEscapeChar)

/-- A JSON string literal. -/
def jsonStr (s : String) : String := "\"" ++ jsonEscape s ++ "\""

/-- A JSON array from already-serialized elements. -/
def jsonArr (l : List String) : String := "[" ++ String.intercalate "," l ++ "]"

/-- Serialize one candidate in the shape of the frontend `Candidate`
interface (the `candidates_json` entries of `downloadPDFReport`). -/
def candidateJson (c : Candidate) : String :=
  "\x7b\"candidate_name\":" ++ jsonStr c.candidate_name ++
    ",\"filename\":" ++ jsonStr c.filename ++
    ",\"match_score\":" ++ toString c.match_score ++
    ",\"justification\":" ++ jsonStr c.justification ++
    ",\"strengths\":" ++ jsonArr (c.strengths.map jsonStr) ++
    ",\"gaps\":" ++ jsonArr (c.gaps.map jsonStr) ++ "\x7d"

/-- Serialize the filename → raw text mapping as one JSON object. -/
def rawTextsJson (resume_texts : List (String × String)) : String :=
  "\x7b" ++
    String.intercalate "," (resume_texts.map fun p => jsonStr p.1 ++ ":" ++ jsonStr p.2) ++
    "\x7d"

/-- Modelled from the spec: the backend `build_report` (ReportAssembler,
spec §4.7) is not in the repository sources; its input payload is
translated from the FormData the frontend `downloadPDFReport` assembles:
job description text (with the uploaded-file fallback string), the
serialized candidates, and the serialized raw texts — one self-contained
payload. -/
def buildReport (jobDescText : String) (candidates : List Candidate)
    (resume_texts : List (String × String)) : String × String × String :=
  ( if jobDescText = "" then "Job Description from uploaded file" else jobDescText,
    jsonArr (candidates.map candidateJson),
    rawTextsJson resume_texts )

end ResumeScanner

namespace ResumeScanner

theorem hybridExpr_nonneg {s : ℚ} {r : ℤ} (hs0 : 0 ≤ s) (hr0 : 0 ≤ r) :
    0 ≤ hybridExpr s r := by
  have hr0' : (0 : ℚ) ≤ (r : ℚ) := by exact_mod_cast hr0
  unfold hybridExpr
  nlinarith

theorem hybridExpr_le {s : ℚ} {r : ℤ} (hs1 : s ≤ 1) (hr1 : r ≤ 100) :
    hybridExpr s r ≤ 100 := by
  have hr1' : (r : ℚ) ≤ 100 := by exact_mod_cast hr1
  unfold hybridExpr
  nlinarith

/-- C1: when both the similarity result S and the reasoning result R are
present, the fused final score equals round(0.4×S×100 + 0.6×R) and lies in
[0, 100]. -/
theorem fuseScore_both_present (s : ℚ) (r : ℤ)
    (hs0 : 0 ≤ s) (hs1 : s ≤ 1) (hr0 : 0 ≤ r) (hr1 : r ≤ 100) :
    fuseScore (some s) (some r) = some (round (hybridExpr s r)) ∧
    0 ≤ round (hybridExpr s r) ∧ round (hybridExpr s r) ≤ 100 := by
  refine ⟨rfl, ?_, ?_⟩
  · rw [round_eq]
    have h0 : (0 : ℤ) = ⌊(0 : ℚ) + 1 / 2⌋ := by norm_num
    rw [h0]
    exact Int.floor_le_floor (by linarith [hybridExpr_nonneg hs0 hr0])
  · rw [round_eq]
    have h100 : ⌊(100 : ℚ) + 1 / 2⌋ = 100 := by norm_num
    rw [← h100]
    exact Int.floor_le_floor (by linarith [hybridExpr_le hs1 hr1])

/-- C1 witness: concrete instantiation at S = 1/2, R = 50. -/
theorem fuseScore_both_present_witness :
    fuseScore (some (1 / 2 : ℚ)) (some 50) = some (round (hybridExpr (1 / 2) 50)) ∧
    0 ≤ round (hybridExpr (1 / 2 : ℚ) 50) ∧ round (hybridExpr (1 / 2 : ℚ) 50) ≤ 100 :=
  fuseScore_both_present (1 / 2) 50 (by norm_num) (by norm_num) (by norm_num) (by norm_num)

theorem rankLE_iff (a b : MatchOutcome) :
    rankLE a b = true ↔
      b.final_score < a.final_score ∨
        (a.final_score = b.final_score ∧ a.filename ≤ b.filename) := by
  simp [rankLE, Bool.or_eq_true, Bool.and_eq_true, decide_eq_true_eq, beq_iff_eq]

theorem rankLE_trans (a b c : MatchOutcome)
    (h₁ : rankLE a b = true) (h₂ : rankLE b c = true) : rankLE a c = true := by
  rw [rankLE_iff] at h₁ h₂ ⊢
  rcases h₁ with h₁ | ⟨e₁, f₁⟩ <;> rcases h₂ with h₂ | ⟨e₂, f₂⟩
  · exact Or.inl (lt_trans h₂ h₁)
  · exact Or.inl (e₂ ▸ h₁)
  · exact Or.inl (e₁ ▸ h₂)
  · exact Or.inr ⟨e₁.trans e₂, le_trans f₁ f₂⟩

theorem rankLE_total (a b : MatchOutcome) : (rankLE a b || rankLE b a) = true := by
  rw [Bool.or_eq_true, rankLE_iff, rankLE_iff]
  rcases lt_trichotomy a.final_score b.final_score with h | h | h
  · exact Or.inr (Or.inl h)
  · rcases le_total a.filename b.filename with hf | hf
    · exact Or.inl (Or.inr ⟨h, hf⟩)
    · exact Or.inr (Or.inr ⟨h.symm, hf⟩)
  · exact Or.inl (Or.inl h)

theorem sortOutcomes_pairwise (l : List MatchOutcome) :
    List.Pairwise (fun a b => rankLE a b = true) (sortOutcomes l) :=
  List.sorted_mergeSort rankLE_trans rankLE_total l

/-- C2: the ranking sequence is sorted by final score descending with ties
broken by filename ascending, it is a permutation of the input outcomes,
sorting again yields the identical sequence, and the comparator is total —
the order is deterministic, never enumeration order. -/
theorem ranking_sorted_total_deterministic (l : List MatchOutcome) :
    List.Pairwise
      (fun a b =>
        b.final_score < a.final_score ∨
          (a.final_score = b.final_score ∧ a.filename ≤ b.filename))
      (sortOutcomes l) ∧
    (sortOutcomes l).Perm l ∧
    sortOutcomes (sortOutcomes l) = sortOutcomes l ∧
    ∀ a b : MatchOutcome, rankLE a b = true ∨ rankLE b a = true := by
  refine ⟨(sortOutcomes_pairwise l).imp fun h => (rankLE_iff _ _).mp h,
    List.mergeSort_perm l rankLE,
    List.mergeSort_of_sorted (sortOutcomes_pairwise l),
    fun a b => ?_⟩
  have h := rankLE_total a b
  rw [Bool.or_eq_true] at h
  exact h

theorem sortOutcomes_length (l : List MatchOutcome) :
    (sortOutcomes l).length = l.length :=
  (List.mergeSort_perm l rankLE).length_eq

/-- C3: the ranked list of a batch has length min(top_k,
scorable_candidate_count); in particular it never exceeds top_k. -/
theorem rankingResult_length (topk : ℕ) (cands : List CandidateInput) :
    (submitBatch topk cands).ranked.length = min topk (scoredOf cands).length ∧
    (submitBatch topk cands).ranked.length ≤ topk := by
  have h : (submitBatch topk cands).ranked.length = min topk (scoredOf cands).length := by
    simp [submitBatch, List.length_take, sortOutcomes_length]
  exact ⟨h, h ▸ min_le_left _ _⟩

theorem scoredOf_full_iff (cands : List CandidateInput) :
    (scoredOf cands).length = cands.length ↔ excludedOf cands = [] := by
  induction cands with
  | nil => simp [scoredOf, excludedOf]
  | cons c cs ih =>
    cases h : pipelineOutcome c with
    | some o =>
      simpa [scoredOf, excludedOf, List.filterMap_cons, h] using ih
    | none =>
      have hle : (cs.filterMap pipelineOutcome).length ≤ cs.length :=
        List.length_filterMap_le _ _
      simp only [scoredOf, excludedOf, List.filterMap_cons, h, List.filter_cons,
        Option.isNone_none, List.length_cons, List.map_cons] at *
      constructor
      · intro hlen
        omega
      · intro hcons
        exact absurd hcons (by simp)

/-- C5: every `submitBatch` result carries a terminal status among
COMPLETED, PARTIAL, FAILED; the status is PARTIAL exactly when at least one
candidate scored and at least one was excluded, and a PARTIAL batch still
returns the full ranked results together with the excluded candidates and
their reasons. -/
theorem submitBatch_terminal_status (topk : ℕ) (cands : List CandidateInput) :
    ((submitBatch topk cands).status = BatchStatus.COMPLETED ∨
      (submitBatch topk cands).status = BatchStatus.PARTIAL ∨
      (submitBatch topk cands).status = BatchStatus.FAILED) ∧
    ((submitBatch topk cands).status = BatchStatus.PARTIAL ↔
      scoredOf cands ≠ [] ∧ excludedOf cands ≠ []) ∧
    (submitBatch topk cands).ranked = (sortOutcomes (scoredOf cands)).take topk ∧
    (submitBatch topk cands).excluded = excludedOf cands := by
  by_cases h1 : (scoredOf cands).length = cands.length
  · have hexc : excludedOf cands = [] := (scoredOf_full_iff cands).mp h1
    simp [submitBatch, h1, hexc]
  · have hexc : excludedOf cands ≠ [] := fun h => h1 ((scoredOf_full_iff cands).mpr h)
    by_cases h2 : scoredOf cands = []
    · have h1' : ¬(0 = cands.length) := by
        intro h
        exact h1 (by rw [h2, ← h]; rfl)
      simp [submitBatch, h1, h2, h1']
    · simp [submitBatch, h1, h2, hexc]

/-- C5 witness: a two-candidate batch in which one candidate carries a
reasoning verdict and the other carries no signal is PARTIAL. -/
theorem submitBatch_terminal_status_witness :
    (submitBatch 2
        [{ filename := "a.pdf", candidate_name := "A", raw_text := "ta",
           similarity := none,
           reasoning := some { match_score := 80, strengths := [], gaps := [],
                               justification := "fits" } },
         { filename := "b.pdf", candidate_name := "B", raw_text := "tb",
           similarity := none, reasoning := none }]).status = BatchStatus.PARTIAL :=
  (submitBatch_terminal_status 2 _).2.1.mpr ⟨by decide, by decide⟩

/-- C4: reasoning-service validation — a non-JSON response, a response
missing any required field (match_score, strengths, gaps or
justification), or a match_score outside 0–100 (e.g. 150) each yield
"absent" (`none`); an accepted verdict always carries the response's own
four field values with the score in range, never a clamped, coerced or
default-filled one; and a candidate whose reasoning is absent falls back
to a similarity-only MatchOutcome when similarity is present and to
exclusion when it is not, so the batch pipeline stays total. -/
theorem reasoning_validation_rejects :
    (∀ b : String, validateResponse (ServiceResponse.nonJson b) = none) ∧
    (∀ f : RawFields,
      f.match_score = none ∨ f.strengths = none ∨ f.gaps = none ∨ f.justification = none →
      validateResponse (ServiceResponse.json f) = none) ∧
    (∀ (f : RawFields) (ms : ℤ), f.match_score = some ms → (ms < 0 ∨ 100 < ms) →
      validateResponse (ServiceResponse.json f) = none) ∧
    (∀ (resp : ServiceResponse) (v : ReasoningVerdict), validateResponse resp = some v →
      ∃ f : RawFields, resp = ServiceResponse.json f ∧
        f.match_score = some v.match_score ∧ f.strengths = some v.strengths ∧
        f.gaps = some v.gaps ∧ f.justification = some v.justification ∧
        0 ≤ v.match_score ∧ v.match_score ≤ 100) ∧
    (∀ (c : CandidateInput) (sq : ℚ), c.reasoning = none → c.similarity = some sq →
      pipelineOutcome c = some
        { candidate_name := c.candidate_name, filename := c.filename,
          final_score := round (sq * 100),
          justification := "similarity-only; reasoning unavailable",
          strengths := [], gaps := [] }) ∧
    (∀ c : CandidateInput, c.reasoning = none → c.similarity = none →
      pipelineOutcome c = none) := by
  refine ⟨fun b => rfl, ?_, ?_, ?_, ?_, ?_⟩
  · intro f hf
    cases hms : f.match_score <;> cases hst : f.strengths <;> cases hgp : f.gaps <;>
        cases hj : f.justification <;>
      simp_all [validateResponse]
  · intro f ms hf hrange
    have : ¬(0 ≤ ms ∧ ms ≤ 100) := by omega
    cases hst : f.strengths <;> cases hgp : f.gaps <;> cases hj : f.justification <;>
      simp [validateResponse, hf, hst, hgp, hj, this]
  · intro resp v hv
    cases resp with
    | transportFailure => simp [validateResponse] at hv
    | nonJson b => simp [validateResponse] at hv
    | json f =>
      refine ⟨f, rfl, ?_⟩
      revert hv
      cases hms : f.match_score with
      | none => simp [validateResponse, hms]
      | some ms =>
        cases hst : f.strengths <;> cases hgp : f.gaps <;> cases hj : f.justification <;>
          simp [validateResponse, hms, hst, hgp, hj]
        intro h0 h100 hv
        subst hv
        exact ⟨rfl, rfl, rfl, rfl, h0, h100⟩
  · intro c sq hr hs
    simp [pipelineOutcome, hr, hs, fuseScore, fusedJustification, fusedStrengths, fusedGaps]
  · intro c hr hs
    simp [pipelineOutcome, hr, hs, fuseScore]

/-- C4 witness: a JSON response whose match_score is 150 is rejected as
"absent", and so is one missing its strengths field. -/
theorem reasoning_validation_rejects_witness :
    validateResponse
      (ServiceResponse.json
        { match_score := some 150, strengths := some [], gaps := some [],
          justification := some "looks great" }) = none ∧
    validateResponse
      (ServiceResponse.json
        { match_score := some 70, strengths := none, gaps := some [],
          justification := some "ok" }) = none :=
  ⟨reasoning_validation_rejects.2.2.1
      { match_score := some 150, strengths := some [], gaps := some [],
        justification := some "looks great" }
      150 rfl (Or.inr (by norm_num)),
    reasoning_validation_rejects.2.1
      { match_score := some 70, strengths := none, gaps := some [],
        justification := some "ok" }
      (Or.inr (Or.inl rfl))⟩

theorem normSqQ_pos {n : ℕ} {A : Fin n → ℚ} (hA : A ≠ 0) : 0 < normSqQ A := by
  obtain ⟨i, hi⟩ : ∃ i, A i ≠ 0 := by
    by_contra h
    push_neg at h
    exact hA (funext fun i => h i)
  refine Finset.sum_pos' (fun j _ => sq_nonneg _) ⟨i, Finset.mem_univ i, ?_⟩
  exact lt_of_le_of_ne (sq_nonneg _) (Ne.symm (pow_ne_zero 2 hi))

theorem dotQ_cast {n : ℕ} (A B : Fin n → ℚ) :
    ((dotQ A B : ℚ) : ℝ) = ∑ i, ((A i : ℚ) : ℝ) * ((B i : ℚ) : ℝ) := by
  unfold dotQ
  push_cast
  rfl

theorem normSqQ_cast {n : ℕ} (A : Fin n → ℚ) :
    ((normSqQ A : ℚ) : ℝ) = ∑ i, ((A i : ℚ) : ℝ) ^ 2 := by
  unfold normSqQ
  push_cast
  rfl

theorem abs_dotQ_le {n : ℕ} (A B : Fin n → ℚ) :
    |((dotQ A B : ℚ) : ℝ)| ≤
      Real.sqrt ((normSqQ A : ℚ) : ℝ) * Real.sqrt ((normSqQ B : ℚ) : ℝ) := by
  rw [dotQ_cast, normSqQ_cast, normSqQ_cast]
  have hupper :=
    Real.sum_mul_le_sqrt_mul_sqrt Finset.univ (fun i => ((A i : ℚ) : ℝ))
      fun i => ((B i : ℚ) : ℝ)
  have hlower :=
    Real.sum_mul_le_sqrt_mul_sqrt Finset.univ (fun i => ((A i : ℚ) : ℝ))
      fun i => -((B i : ℚ) : ℝ)
  simp only [mul_neg, Finset.sum_neg_distrib, neg_sq] at hlower
  exact abs_le.mpr ⟨by linarith, hupper⟩

theorem cosineSim_bounds {n : ℕ} (A B : Fin n → ℚ) (hA : A ≠ 0) (hB : B ≠ 0) :
    -1 ≤ cosineSim A B ∧ cosineSim A B ≤ 1 := by
  have ha : (0 : ℝ) < Real.sqrt ((normSqQ A : ℚ) : ℝ) :=
    Real.sqrt_pos.mpr (by exact_mod_cast normSqQ_pos hA)
  have hb : (0 : ℝ) < Real.sqrt ((normSqQ B : ℚ) : ℝ) :=
    Real.sqrt_pos.mpr (by exact_mod_cast normSqQ_pos hB)
  have hd : (0 : ℝ) < Real.sqrt ((normSqQ A : ℚ) : ℝ) * Real.sqrt ((normSqQ B : ℚ) : ℝ) :=
    mul_pos ha hb
  have habs : |cosineSim A B| ≤ 1 := by
    unfold cosineSim
    rw [abs_div, abs_of_pos hd]
    exact div_le_one_of_le₀ (abs_dotQ_le A B) (le_of_lt hd)
  exact abs_le.mp habs

/-- C7: for available non-zero vectors the raw cosine lies in [-1,1], the
similarity score used downstream is exactly its single central rescaling
(cosine+1)/2, and that score lies in [0,1]. -/
theorem cosine_rescaled_once_unit_interval {n : ℕ} (A B : Fin n → ℚ)
    (hA : A ≠ 0) (hB : B ≠ 0) :
    (-1 ≤ cosineSim A B ∧ cosineSim A B ≤ 1) ∧
    similarityScore A B = rescaleCosine (cosineSim A B) ∧
    rescaleCosine (cosineSim A B) = (cosineSim A B + 1) / 2 ∧
    0 ≤ similarityScore A B ∧ similarityScore A B ≤ 1 := by
  obtain ⟨h₁, h₂⟩ := cosineSim_bounds A B hA hB
  refine ⟨⟨h₁, h₂⟩, rfl, rfl, ?_, ?_⟩
  · unfold similarityScore rescaleCosine
    linarith
  · unfold similarityScore rescaleCosine
    linarith

/-- C7 witness: concrete one-dimensional vectors (1) and (1). -/
theorem cosine_rescaled_once_unit_interval_witness :
    0 ≤ similarityScore (fun _ : Fin 1 => (1 : ℚ)) (fun _ : Fin 1 => (1 : ℚ)) ∧
    similarityScore (fun _ : Fin 1 => (1 : ℚ)) (fun _ : Fin 1 => (1 : ℚ)) ≤ 1 :=
  (cosine_rescaled_once_unit_interval (fun _ : Fin 1 => (1 : ℚ)) (fun _ : Fin 1 => (1 : ℚ))
    (fun h => absurd (congrFun h 0) (by norm_num))
    (fun h => absurd (congrFun h 0) (by norm_num))).2.2.2

/-- C8: `buildReport` is a deterministic pure transform — with identical
job text, ranking and raw texts, two calls produce identical payloads. -/
theorem buildReport_deterministic (j j' : String) (cs cs' : List Candidate)
    (ts ts' : List (String × String)) (hj : j = j') (hc : cs = cs') (ht : ts = ts') :
    buildReport j cs ts = buildReport j' cs' ts' := by
  subst hj
  subst hc
  subst ht
  rfl

/-- C8 witness: concrete identical inputs give identical payloads. -/
theorem buildReport_deterministic_witness :
    buildReport "backend engineer"
        [{ candidate_name := "A", filename := "a.pdf", match_score := 80,
           justification := "fits", strengths := ["go"], gaps := [] }]
        [("a.pdf", "text a")] =
      buildReport "backend engineer"
        [{ candidate_name := "A", filename := "a.pdf", match_score := 80,
           justification := "fits", strengths := ["go"], gaps := [] }]
        [("a.pdf", "text a")] :=
  buildReport_deterministic _ _ _ _ _ _ rfl rfl rfl

/-- C9: in every reachable state of the matcher UI the job-description file
and the job-description text are mutually exclusive — the file is absent or
the text is empty. -/
theorem jobDesc_mutually_exclusive (s : UIState) (hs : Reachable s) :
    s.jobDescFile = none ∨ s.jobDescText = "" := by
  induction hs with
  | init => exact Or.inl rfl
  | next hs e ih =>
    cases e with
    | jobDescFileChange f =>
      cases f with
      | none => exact ih
      | some file => exact Or.inr rfl
    | jobDescTextChange t =>
      by_cases ht : t = ""
      · rcases ih with h | h
        · exact Or.inl (by simp [step, ht, h])
        · exact Or.inr (by simp [step, ht])
      · exact Or.inl (by simp [step, ht])
    | resumeFilesChange files => exact ih
    | removeResume i => exact ih
    | setTopK input => exact ih
    | submit r =>
      rcases ih with h | h
      · refine Or.inl ?_
        simp only [step, handleSubmit]
        split
        · exact h
        · cases r <;> simp only [] <;> exact h
      · refine Or.inr ?_
        simp only [step, handleSubmit]
        split
        · exact h
        · cases r <;> simp only [] <;> exact h
    | downloadReportClick ok =>
      rcases ih with h | h
      · refine Or.inl ?_
        simp only [step, downloadReport]
        split
        · exact h
        · split <;> exact h
      · refine Or.inr ?_
        simp only [step, downloadReport]
        split
        · exact h
        · split <;> exact h

/-- C9 witness: the invariant at the initial state. -/
theorem jobDesc_mutually_exclusive_witness :
    initState.jobDescFile = none ∨ initState.jobDescText = "" :=
  jobDesc_mutually_exclusive initState Reachable.init

/-- C10: when no job description is provided (no file and blank text) or
the resume list is empty, `handleSubmit` sets the error message, issues no
network request, and leaves the stored results unchanged. -/
theorem handleSubmit_guard_no_request (s : UIState) (r : Option MatchResults)
    (h : (s.jobDescFile = none ∧ jsTrim s.jobDescText = "") ∨ s.resumeFiles = []) :
    (handleSubmit s r).2 = none ∧
    (handleSubmit s r).1.error = "Please provide a job description and at least one resume" ∧
    (handleSubmit s r).1.results = s.results := by
  have hg : submitGuard s = true := by
    rcases h with ⟨hf, ht⟩ | hr
    · simp [submitGuard, hf, ht]
    · simp [submitGuard, hr]
  simp [handleSubmit, hg]

/-- C10 witness: the initial state (no job description, no resumes) takes
the guard path. -/
theorem handleSubmit_guard_no_request_witness :
    (handleSubmit initState none).2 = none ∧
    (handleSubmit initState none).1.error =
      "Please provide a job description and at least one resume" ∧
    (handleSubmit initState none).1.results = initState.results :=
  handleSubmit_guard_no_request initState none (Or.inl ⟨rfl, by decide⟩)

/-- C6: the claim that every reachable topK is at least 1 fails on the
code: the topK input's onChange stores `parseInt(value) || 5`, and a typed
"-3" parses to the truthy -3, so the reachable state after that keystroke
holds topK = -3 < 1 — while a typed "0" is falsy and is coerced to 5. -/
theorem topK_lower_bound_violated :
    (step initState (UIEvent.setTopK "-3")).topK = -3 ∧
    Reachable (step initState (UIEvent.setTopK "-3")) ∧
    ¬(1 ≤ (step initState (UIEvent.setTopK "-3")).topK) ∧
    topKUpdate "0" = 5 ∧ topKUpdate "" = 5 :=
  ⟨by decide, Reachable.next Reachable.init _, by decide, by decide, by decide⟩

end ResumeScanner
